import Mathlib

/-!
Shallow embedding of the miDNI QR-payload decoder of this repository.

The embedded source is the decoder page bundled in
src/src/components/QrScanner.tsx (functions decodeC40, decodeMiDNIHeaderDate,
decodeText, parseDERLength, decodeMiDNI) together with the TLV record
dispatch of decodeQrData in src/src/app/page.tsx.

Modelling conventions:
- A byte buffer (JS Uint8Array) is a List Nat whose elements are < 256.
- A JS string is modelled as a List Nat of UTF-16 code units (JsStr) where
  lone surrogates can occur, and as a Lean String where only scalar values
  can occur (C40 output, date strings, hex renderings).
- Reading data[i] out of bounds yields undefined in JS; it is modelled as
  Option Nat via jsIndex (none = undefined).
- JS bitwise operators coerce to signed 32-bit integers; jsInt32 performs
  that reduction on Int.
- A thrown exception is an .error of the DErr type; the top-level catch of
  decodeMiDNI maps any .error to none (the JS null return).
- The TLV payload loop of decodeMiDNI can revisit an earlier offset when a
  4-octet DER length wraps to a negative 32-bit value, and the JS loop then
  need not terminate.  The loop is therefore written with explicit fuel; the
  outer Option of the decode result is none exactly when the fuel
  (data.length + 1, enough for every forward-progressing run) is exhausted.
-/

namespace MiDNI

/-! ## JS primitives -/

/-- Signed 32-bit reduction, the ToInt32 coercion applied by the JS bitwise
operators. -/
def jsInt32 (n : Int) : Int := (n + 2147483648) % 4294967296 - 2147483648

/-- data[i] on a Uint8Array: some byte when 0 <= i < length, otherwise
undefined (none). -/
def jsIndex (data : List Nat) (i : Int) : Option Nat :=
  if 0 ≤ i ∧ i < (data.length : Int) then some (data.getD i.toNat 0) else none

/-- data.slice(a, b) for Nat bounds (the header reads): drop a, take b - a,
clamping at the end of the buffer exactly as JS slice does. -/
def listSlice (data : List Nat) (a b : Nat) : List Nat :=
  (data.drop a).take (b - a)

/-- data.slice(a, b) with JS index normalisation: negative indices count from
the end, out-of-range indices clamp, an empty range gives []. -/
def jsSlice (data : List Nat) (a b : Int) : List Nat :=
  let n : Int := data.length
  let s := (if a < 0 then max (n + a) 0 else min a n).toNat
  let e := (if b < 0 then max (n + b) 0 else min b n).toNat
  (data.drop s).take (e - s)

/-- The code points treated as whitespace by the JS string trim method
(ECMAScript WhiteSpace plus LineTerminator). -/
def wsNat (c : Nat) : Bool :=
  (9 ≤ c && c ≤ 13) || c = 32 || c = 0xA0 || c = 0x1680 ||
  (0x2000 ≤ c && c ≤ 0x200A) || c = 0x2028 || c = 0x2029 ||
  c = 0x202F || c = 0x205F || c = 0x3000 || c = 0xFEFF

/-- s.trim() on a Lean String. -/
def jsTrimStr (s : String) : String :=
  String.mk ((((s.toList.dropWhile (fun c => wsNat c.toNat)).reverse).dropWhile
    (fun c => wsNat c.toNat)).reverse)

/-- Lowercase hex digit. -/
def hexDigitChar (n : Nat) : Char :=
  if n < 10 then Char.ofNat (48 + n) else Char.ofNat (87 + n)

/-- Uppercase hex digit. -/
def hexDigitCharUpper (n : Nat) : Char :=
  if n < 10 then Char.ofNat (48 + n) else Char.ofNat (55 + n)

/-- b.toString(16).padStart(2, '0') for a byte value b < 256. -/
def hexByte (b : Nat) : String := String.mk [hexDigitChar (b / 16 % 16), hexDigitChar (b % 16)]

/-- b.toString(16).padStart(2, '0').toUpperCase() for a byte value b < 256. -/
def hexByteUpper (b : Nat) : String :=
  String.mk [hexDigitCharUpper (b / 16 % 16), hexDigitCharUpper (b % 16)]

/-- n.toString(16) for n < 256: one or two lowercase hex digits, no padding. -/
def hexNat (n : Nat) : String :=
  if n < 16 then String.mk [hexDigitChar n]
  else String.mk [hexDigitChar (n / 16 % 16), hexDigitChar (n % 16)]

/-- map(hexByte).join(' '): space-separated lowercase hex dump. -/
def hexSpaced (bytes : List Nat) : String := String.intercalate " " (bytes.map hexByte)

/-- map(hexByte).join(''): lowercase hex dump without separators. -/
def hexConcat (bytes : List Nat) : String := String.join (bytes.map hexByte)

/-- map(hexByteUpper).join(''): uppercase hex dump without separators. -/
def hexUpperConcat (bytes : List Nat) : String := String.join (bytes.map hexByteUpper)

/-- n.toString().padStart(2, '0'). -/
def jsPad2 (n : Nat) : String := if n < 10 then "0" ++ toString n else toString n

/-! ## Gregorian calendar arithmetic

JS Date stores milliseconds since the Unix epoch; adding value*86400000 to a
midnight base date and reading year/month/day is, with the local timezone
modelled as UTC, the civil-from-days conversion below (the standard
era-based algorithm for the proleptic Gregorian calendar).  civilOfZ takes
the day number shifted by +719468 so that it is a Nat (0 maps to
0000-03-01), and returns (fullYear, month 1..12, dayOfMonth). -/

def civilOfZ (z : Nat) : Nat × Nat × Nat :=
  let era := z / 146097
  let doe := z % 146097
  let yoe := (doe - doe / 1460 + doe / 36524 - doe / 146096) / 365
  let y := yoe + era * 400
  let doy := doe - (365 * yoe + yoe / 4 - yoe / 100)
  let mp := (5 * doy + 2) / 153
  let d := doy - (153 * mp + 2) / 5 + 1
  let m := if mp < 10 then mp + 3 else mp - 9
  (if m ≤ 2 then y + 1 else y, m, d)

/-! ## decodeC40 (QrScanner.tsx lines 220-259) -/

/-- One C40 table position: positions 0-2 hold the number placeholders 0,1,2
(shift codes), so the source's check (c < C40_TABLE.length and the entry is a
string) emits a character exactly for table positions 3..39; every other
value, including the negative ones arising from word 0, emits nothing. -/
def c40EmitChar (v : Int) : Option Char :=
  if 3 ≤ v ∧ v ≤ 39 then
    if v = 3 then some ' '
    else if v ≤ 13 then some (Char.ofNat (48 + (v - 4).toNat))
    else some (Char.ofNat (65 + (v - 14).toNat))
  else none

/-- The while loop of decodeC40: pairs of bytes are combined big-endian
((b0 << 8) | b1 = b0*256 + b1 for byte values); the padding word 0xFE00
stops the loop, an odd trailing byte is ignored.  JS division is
Math.floor and the JS remainder truncates toward zero, hence fdiv/tmod. -/
def c40Loop : List Nat → List Char
  | b0 :: b1 :: rest =>
    let w : Nat := b0 * 256 + b1
    if w = 0xFE00 then []
    else
      let v : Int := (w : Int) - 1
      let c1 := Int.fdiv v 1600
      let c2 := Int.fdiv (Int.tmod v 1600) 40
      let c3 := Int.tmod v 40
      ((c40EmitChar c1).toList ++ (c40EmitChar c2).toList ++ (c40EmitChar c3).toList)
        ++ c40Loop rest
  | _ => []

/-- decodeC40: run the pair loop, replace every < with a space, trim. -/
def decodeC40 (bytes : List Nat) : String :=
  jsTrimStr (String.mk ((c40Loop bytes).map fun c => if c = '<' then ' ' else c))

/-- Modelled from the spec: the 2-byte C40 group value for three table
positions, W = c1*1600 + c2*40 + c3 + 1 (the encoder is not part of the
repository source; this is the inverse the spec defines for the round-trip
statement). -/
def c40Word (c1 c2 c3 : Nat) : Nat := c1 * 1600 + c2 * 40 + c3 + 1

/-! ## decodeMiDNIHeaderDate (QrScanner.tsx lines 262-353) -/

/-- (b >> 4) * 10 + (b & 0x0F), the BCD pair read of method 3. -/
def bcdPair (b : Nat) : Nat := (b / 16) * 10 + b % 16

/-- day-month-year with 2-digit padding, the result format every date method
produces. -/
def fmtDMY (d m y : Nat) : String := jsPad2 d ++ "-" ++ jsPad2 m ++ "-" ++ toString y

/-- One epoch-offset date hypothesis: interpret the 24-bit value as a count
of days from a base date (shift = base day number + 719468) and accept when
the resulting full year lies in [yLo, yHi]. -/
def epochMethod (value shift yLo yHi : Nat) : Option String :=
  let c := civilOfZ (value + shift)
  if yLo ≤ c.1 ∧ c.1 ≤ yHi then some (fmtDMY c.2.2 c.2.1 c.1) else none

/-- Method 1: days since 1900-01-01 (day number -25567), accept 1950..2030. -/
def method1 (v : Nat) : Option String := epochMethod v 693901 1950 2030

/-- Method 2: days since 1970-01-01, accept 1990..2030. -/
def method2 (v : Nat) : Option String := epochMethod v 719468 1990 2030

/-- Method 3: BCD year/month/day with year 2000 + BCD(b0), accept months
1..12, days 1..31, years 2000..2050. -/
def method3 (b0 b1 b2 : Nat) : Option String :=
  let year := 2000 + bcdPair b0
  let month := bcdPair b1
  let day := bcdPair b2
  if 1 ≤ month ∧ month ≤ 12 ∧ 1 ≤ day ∧ day ≤ 31 ∧ 2000 ≤ year ∧ year ≤ 2050 then
    some (fmtDMY day month year)
  else none

/-- Method 4 (the ICAO MMDDYYYY hypothesis): the source renders v as a
zero-padded 8-digit decimal string and parses substrings (0,2), (2,2),
(4,4); since v < 2^24 < 10^8 these are exactly the decimal digit groups
v / 10^6, v / 10^4 % 100, v % 10^4.  Accept months 1..12, days 1..31,
years 1950..2030; no calendar-validity check is performed. -/
def method4 (v : Nat) : Option String :=
  let month := v / 1000000
  let day := v / 10000 % 100
  let year := v % 10000
  if 1 ≤ month ∧ month ≤ 12 ∧ 1 ≤ day ∧ day ≤ 31 ∧ 1950 ≤ year ∧ year ≤ 2030 then
    some (fmtDMY day month year)
  else none

/-- Method 5: days since 2000-01-01 (day number 10957), accept 2000..2040. -/
def method5 (v : Nat) : Option String := epochMethod v 730425 2000 2040

/-- The bracketed raw-hex fallback shown when no date method succeeds, and
also when the input slice does not hold exactly 3 bytes. -/
def dateFallback (bytes : List Nat) : String := "[" ++ hexSpaced bytes ++ "]"

/-- The body of decodeMiDNIHeaderDate after its 3-byte guard: combine the
bytes big-endian ((b0 << 16) | (b1 << 8) | b2 = b0*65536 + b1*256 + b2 for
byte values) and try the five date hypotheses in order; fall back to the
bracketed hex dump. -/
def decodeDate3 (b0 b1 b2 : Nat) : String :=
  let v := b0 * 65536 + b1 * 256 + b2
  (((((method1 v).or (method2 v)).or (method3 b0 b1 b2)).or (method4 v)).or
    (method5 v)).getD (dateFallback [b0, b1, b2])

/-- decodeMiDNIHeaderDate: the source guard (bytes.length !== 3) renders
anything but exactly 3 bytes as the bracketed hex dump; 3 bytes run the
five-method chain. -/
def decodeMiDNIHeaderDate : List Nat → String
  | [b0, b1, b2] => decodeDate3 b0 b1 b2
  | bytes => dateFallback bytes

/-! ## decodeText (QrScanner.tsx lines 356-470)

JS strings are UTF-16 code unit sequences; String.fromCharCode can build
lone surrogates, so the text decoder works on List Nat of code units. -/

/-- A JS string as its UTF-16 code unit sequence. -/
abbrev JsStr := List Nat

/-- result.trim() on a code unit sequence. -/
def jsTrimU (s : JsStr) : JsStr :=
  ((s.dropWhile wsNat).reverse.dropWhile wsNat).reverse

/-- UTF-16 encoding of one code point (surrogate pair above U+FFFF). -/
def utf16OfCp (cp : Nat) : JsStr :=
  if cp < 0x10000 then [cp]
  else [0xD800 + (cp - 0x10000) / 0x400, 0xDC00 + (cp - 0x10000) % 0x400]

/-- Strict (fatal: true) WHATWG UTF-8 decoding to code points: any invalid
byte, truncated sequence, overlong form, surrogate or value above U+10FFFF
makes the whole decode fail (the TextDecoder throw). -/
def utf8DecodeStrict : List Nat → Option (List Nat)
  | [] => some []
  | b :: rest =>
    if b < 0x80 then (utf8DecodeStrict rest).map (b :: ·)
    else if 0xC2 ≤ b ∧ b ≤ 0xDF then
      match rest with
      | c :: r2 =>
        if 0x80 ≤ c ∧ c ≤ 0xBF then
          (utf8DecodeStrict r2).map (((b - 0xC0) * 64 + (c - 0x80)) :: ·)
        else none
      | [] => none
    else if 0xE0 ≤ b ∧ b ≤ 0xEF then
      let lo := if b = 0xE0 then 0xA0 else 0x80
      let hi := if b = 0xED then 0x9F else 0xBF
      match rest with
      | c :: d :: r3 =>
        if lo ≤ c ∧ c ≤ hi ∧ 0x80 ≤ d ∧ d ≤ 0xBF then
          (utf8DecodeStrict r3).map
            (((b - 0xE0) * 4096 + (c - 0x80) * 64 + (d - 0x80)) :: ·)
        else none
      | _ => none
    else if 0xF0 ≤ b ∧ b ≤ 0xF4 then
      let lo := if b = 0xF0 then 0x90 else 0x80
      let hi := if b = 0xF4 then 0x8F else 0xBF
      match rest with
      | c :: d :: e :: r4 =>
        if lo ≤ c ∧ c ≤ hi ∧ 0x80 ≤ d ∧ d ≤ 0xBF ∧ 0x80 ≤ e ∧ e ≤ 0xBF then
          (utf8DecodeStrict r4).map
            (((b - 0xF0) * 262144 + (c - 0x80) * 4096 + (d - 0x80) * 64 + (e - 0x80)) :: ·)
        else none
      | _ => none
    else none

/-- new TextDecoder('utf-8', fatal: true).decode: the WHATWG UTF-8 decoder
strips one leading byte order mark and serialises code points to UTF-16. -/
def utf8StrictJs (bytes : List Nat) : Option JsStr :=
  let core := match bytes with
    | 0xEF :: 0xBB :: 0xBF :: r => r
    | l => l
  (utf8DecodeStrict core).map fun cps => (cps.map utf16OfCp).flatten

/-- Method 2 of decodeText: the manual permissive UTF-8 walk.  A valid
2-byte sequence (code point 0x80..0x7FF) or 3-byte sequence (code point
0x800..0xFFFF, surrogates not excluded) consumes its bytes; anything else
falls back to emitting the single lead byte as a Latin-1 code unit.  The
lead-byte tests replicate the source conditions (byte & 0xE0) == 0xC0 with
a following byte available, and (byte & 0xF0) == 0xE0 with two following
bytes available. -/
def manualWalkF : Nat → List Nat → JsStr
  | 0, _ => []
  | _ + 1, [] => []
  | fuel + 1, b :: rest =>
    if b < 0x80 then b :: manualWalkF fuel rest
    else if b % 32 + 0xC0 = b then
      match rest with
      | c :: r2 =>
        if c % 64 + 0x80 = c ∧
            0x80 ≤ (b % 32) * 64 + c % 64 ∧ (b % 32) * 64 + c % 64 ≤ 0x7FF then
          ((b % 32) * 64 + c % 64) :: manualWalkF fuel r2
        else b :: manualWalkF fuel rest
      | [] => b :: manualWalkF fuel rest
    else if b % 16 + 0xE0 = b then
      match rest with
      | c :: d :: r3 =>
        if c % 64 + 0x80 = c ∧ d % 64 + 0x80 = d ∧
            0x800 ≤ (b % 16) * 4096 + (c % 64) * 64 + d % 64 ∧
            (b % 16) * 4096 + (c % 64) * 64 + d % 64 ≤ 0xFFFF then
          ((b % 16) * 4096 + (c % 64) * 64 + d % 64) :: manualWalkF fuel r3
        else b :: manualWalkF fuel rest
      | _ => b :: manualWalkF fuel rest
    else b :: manualWalkF fuel rest

/-- The walk with fuel bytes.length: every iteration of the JS while loop
consumes at least one byte, so this fuel is never exhausted and the zero
case of manualWalkF is unreachable. -/
def manualWalk (bytes : List Nat) : JsStr := manualWalkF bytes.length bytes

/-- new TextDecoder('iso-8859-1').decode: per the WHATWG encoding standard
the iso-8859-1 label resolves to windows-1252, which maps bytes 0x80..0x9F
through the table below and every other byte to itself; it never fails. -/
def win1252Byte (b : Nat) : Nat :=
  if b = 0x80 then 0x20AC else if b = 0x82 then 0x201A else if b = 0x83 then 0x0192
  else if b = 0x84 then 0x201E else if b = 0x85 then 0x2026 else if b = 0x86 then 0x2020
  else if b = 0x87 then 0x2021 else if b = 0x88 then 0x02C6 else if b = 0x89 then 0x2030
  else if b = 0x8A then 0x0160 else if b = 0x8B then 0x2039 else if b = 0x8C then 0x0152
  else if b = 0x8E then 0x017D else if b = 0x91 then 0x2018 else if b = 0x92 then 0x2019
  else if b = 0x93 then 0x201C else if b = 0x94 then 0x201D else if b = 0x95 then 0x2022
  else if b = 0x96 then 0x2013 else if b = 0x97 then 0x2014 else if b = 0x98 then 0x02DC
  else if b = 0x99 then 0x2122 else if b = 0x9A then 0x0161 else if b = 0x9B then 0x203A
  else if b = 0x9C then 0x0153 else if b = 0x9E then 0x017E else if b = 0x9F then 0x0178
  else b

/-- Method 3 of decodeText: the whole-buffer windows-1252 decode. -/
def win1252 (bytes : List Nat) : JsStr := bytes.map win1252Byte

/-- Method 4 of decodeText: printable ASCII (32..126) and the 160..255
range map to themselves, tab, line feed and carriage return survive,
everything else becomes a question mark. -/
def asciiMapChar (b : Nat) : Nat :=
  if 32 ≤ b ∧ b ≤ 126 then b
  else if 160 ≤ b ∧ b ≤ 255 then b
  else if b = 9 ∨ b = 10 ∨ b = 13 then b
  else 63

/-- The byte-wise mapping of method 4 before its trim. -/
def asciiMap (bytes : List Nat) : JsStr := bytes.map asciiMapChar

/-- The final hex fallback of decodeText, as code units. -/
def hexUnits (bytes : List Nat) : JsStr :=
  (("[" ++ hexSpaced bytes ++ "]").toList).map Char.toNat

/-- Stage 4 and the hex fallback: keep the trimmed ASCII mapping unless it
is empty or consists solely of question marks. -/
def decodeTextM4 (bytes : List Nat) : JsStr :=
  let r := jsTrimU (asciiMap bytes)
  if r ≠ [] ∧ r ≠ List.replicate r.length 63 then r else hexUnits bytes

/-- Stage 3: keep the windows-1252 decode when nonempty with nonempty
trim. -/
def decodeTextM3 (bytes : List Nat) : JsStr :=
  let r := win1252 bytes
  if r ≠ [] ∧ jsTrimU r ≠ [] then jsTrimU r else decodeTextM4 bytes

/-- Stage 2: keep the manual walk when nonempty with nonempty trim. -/
def decodeTextM2 (bytes : List Nat) : JsStr :=
  let r := manualWalk bytes
  if r ≠ [] ∧ jsTrimU r ≠ [] then jsTrimU r else decodeTextM3 bytes

/-- decodeText: empty input gives the empty string, then the four decoding
stages run in order; the strict UTF-8 result is kept when it is nonempty,
has a nonempty trim and contains no replacement character, and both the
TextDecoder throw (none) and a failed condition fall through to stage 2. -/
def decodeText (bytes : List Nat) : JsStr :=
  if bytes = [] then []
  else
    ((utf8StrictJs bytes).bind fun r =>
      if r ≠ [] ∧ jsTrimU r ≠ [] ∧ r.contains 0xFFFD = false then some (jsTrimU r)
      else none).getD (decodeTextM2 bytes)

/-! ## parseDERLength (QrScanner.tsx lines 473-518) -/

/-- The error taxonomy: each constructor is one throw site of the embedded
decoder.  derIndefinite, derTooMany, derNotEnough and derExceeds are the
InvalidLength family of the specification. -/
inductive DErr where
  | insufficientData
  | notMiDNI
  | signerInsufficient
  | signerTooShort
  | derOffsetOOR
  | derIndefinite
  | derTooMany
  | derNotEnough
  | derExceeds
deriving DecidableEq, Repr

instance instDecEqExcept {ε α : Type} [DecidableEq ε] [DecidableEq α] :
    DecidableEq (Except ε α)
  | .ok x, .ok y =>
    if h : x = y then .isTrue (by rw [h]) else .isFalse (fun hc => h (Except.ok.inj hc))
  | .error x, .error y =>
    if h : x = y then .isTrue (by rw [h]) else .isFalse (fun hc => h (Except.error.inj hc))
  | .ok _, .error _ => .isFalse (fun hc => Except.noConfusion hc)
  | .error _, .ok _ => .isFalse (fun hc => Except.noConfusion hc)

/-- One step of the length accumulation (length << 8) | b on signed 32-bit
values: for an int32 accumulator the shift is the 32-bit reduction of
a * 256 (whose low 8 bits are zero), and the bitwise or with a byte then
adds the byte. -/
def derStep (a : Int) (b : Nat) : Int := jsInt32 (a * 256) + b

/-- The k-octet length accumulation loop of parseDERLength. -/
def derFold (bs : List Nat) : Int := bs.foldl derStep 0

/-- The exact (unwrapped) big-endian value of a byte list. -/
def beStep (a : Int) (b : Nat) : Int := a * 256 + b

/-- Big-endian combination of a byte list as an unbounded integer. -/
def beVal (bs : List Nat) : Int := bs.foldl beStep 0

/-- The k length octets following position off, read with getD (always in
bounds where this is used in the theorems below). -/
def derBytesN (data : List Nat) (off k : Nat) : List Nat :=
  (List.range k).map fun i => data.getD (off + 1 + i) 0

/-- parseDERLength: offset at or past the end throws; a first byte below
0x80 is a short-form length consuming one byte; otherwise the low 7 bits
(b % 128 = b & 0x7F for byte values) give the count k of following length
octets, with throws for k = 0 (indefinite), k > 4 (too many), not enough
bytes for k, and an accumulated length exceeding data.length.  A negative
offset reads undefined; in JS undefined fails the < 0x80 test and
undefined & 0x7F evaluates to 0, so that case throws the indefinite-length
error, which the none branch mirrors. -/
def parseDERLength (data : List Nat) (offset : Int) : Except DErr (Int × Int) :=
  if (data.length : Int) ≤ offset then .error .derOffsetOOR
  else
    match jsIndex data offset with
    | none => .error .derIndefinite
    | some b =>
      if b < 0x80 then .ok ((b : Int), offset + 1)
      else
        let k := b % 128
        if k = 0 then .error .derIndefinite
        else if 4 < k then .error .derTooMany
        else if (data.length : Int) ≤ offset + k then .error .derNotEnough
        else
          let lenBytes :=
            (List.range k).map fun (i : Nat) => (jsIndex data (offset + 1 + (i : Int))).getD 0
          let l := derFold lenBytes
          if (data.length : Int) < l then .error .derExceeds
          else .ok (l, offset + k + 1)

/-! ## decodeMiDNI (QrScanner.tsx lines 521-872) -/

/-- The image descriptor built for tag 0x50. -/
structure ImageInfo where
  size : Nat
  format : String
  dataUrl : Option String
deriving DecidableEq, Repr

/-- The payload record of decodeMiDNI.  The source type has no field for
unrecognized tags: the default switch arm only logs. -/
structure MiPayload where
  documentNumber : Option JsStr := none
  dateOfBirth : Option JsStr := none
  name : Option JsStr := none
  surnames : Option JsStr := none
  sex : Option JsStr := none
  expiryDate : Option JsStr := none
  image : Option ImageInfo := none
  address : Option JsStr := none
  birthPlace : Option JsStr := none
  nationality : Option JsStr := none
  parentsNames : Option JsStr := none
  isAdult : Option Bool := none
  dataExpiryDateTime : Option JsStr := none
deriving DecidableEq, Repr

def emptyMiPayload : MiPayload := {}

/-- btoa(String.fromCharCode(...value)): standard base64 with padding; it
cannot throw here because every code unit is below 256. -/
def b64Char (n : Nat) : Char :=
  if n < 26 then Char.ofNat (65 + n)
  else if n < 52 then Char.ofNat (97 + (n - 26))
  else if n < 62 then Char.ofNat (48 + (n - 52))
  else if n = 62 then '+' else '/'

def jsBtoa : List Nat → String
  | [] => ""
  | [a] => String.mk [b64Char (a / 4), b64Char (a % 4 * 16), '=', '=']
  | [a, b] => String.mk [b64Char (a / 4), b64Char (a % 4 * 16 + b / 16), b64Char (b % 16 * 4), '=']
  | a :: b :: c :: r =>
    String.mk [b64Char (a / 4), b64Char (a % 4 * 16 + b / 16),
      b64Char (b % 16 * 4 + c / 64), b64Char (c % 64)] ++ jsBtoa r

/-- Image format sniffing for tag 0x50: hex renderings of the first 4 and
first 12 bytes are matched against the JPEG2000, JPEG and PNG signatures;
the default is JPEG2000/image-jp2. -/
def imageFmtMime (value : List Nat) : String × String :=
  if 4 ≤ value.length then
    let header := hexConcat (listSlice value 0 4)
    let fm0 := ("JPEG2000", "image/jp2")
    let fm1 :=
      if 12 ≤ value.length ∧ (hexConcat (listSlice value 0 12)).startsWith "0000000c6a502020" then
        ("JPEG2000", "image/jp2")
      else fm0
    let fm2 := if header.startsWith "ffd8" then ("JPEG", "image/jpeg") else fm1
    if header.startsWith "89504e47" then ("PNG", "image/png") else fm2
  else ("JPEG2000", "image/jp2")

/-- The ImageInfo built for tag 0x50: size, sniffed format, and a base64
data URL only when more than 10 bytes are present. -/
def mkImage (value : List Nat) : ImageInfo :=
  { size := value.length
    format := (imageFmtMime value).1
    dataUrl :=
      if 10 < value.length then
        some ("data:" ++ (imageFmtMime value).2 ++ ";base64," ++ jsBtoa value)
      else none }

/-- value.length > 0 and value[0] === 0x01, the tag 0x70 boolean. -/
def isAdultOf : List Nat → Bool
  | 1 :: _ => true
  | _ => false

/-- The switch over the tag byte.  The tag is an Option because data[offset]
is undefined for a negative offset (reachable only after a wrapped negative
DER length); undefined matches no case label, so none falls through to the
default arm, which leaves the payload unchanged (the source only logs
there). -/
def dispatchTag (tag : Option Nat) (value : List Nat) (p : MiPayload) : MiPayload :=
  if tag = some 0x40 then { p with documentNumber := some (decodeText value) }
  else if tag = some 0x42 then { p with dateOfBirth := some (decodeText value) }
  else if tag = some 0x44 then { p with name := some (decodeText value) }
  else if tag = some 0x46 then { p with surnames := some (decodeText value) }
  else if tag = some 0x48 then { p with sex := some (decodeText value) }
  else if tag = some 0x4C then { p with expiryDate := some (decodeText value) }
  else if tag = some 0x50 then { p with image := some (mkImage value) }
  else if tag = some 0x60 then { p with address := some (decodeText value) }
  else if tag = some 0x62 then { p with birthPlace := some (decodeText value) }
  else if tag = some 0x64 then { p with nationality := some (decodeText value) }
  else if tag = some 0x66 then { p with parentsNames := some (decodeText value) }
  else if tag = some 0x70 then { p with isAdult := some (isAdultOf value) }
  else if tag = some 0x72 then { p with address := some (p.address.getD [] ++ decodeText value) }
  else if tag = some 0x74 then
    { p with address := some (p.address.getD [] ++ [32] ++ decodeText value) }
  else if tag = some 0x76 then
    { p with address := some (p.address.getD [] ++ [32] ++ decodeText value) }
  else if tag = some 0x78 then
    { p with birthPlace := some (p.birthPlace.getD [] ++ [32] ++ decodeText value) }
  else if tag = some 0x7A then
    { p with birthPlace := some (p.birthPlace.getD [] ++ [32] ++ decodeText value) }
  else if tag = some 0x80 then { p with dataExpiryDateTime := some (decodeText value) }
  else p

/-- The TLV payload loop of decodeMiDNI.  One iteration: exit when the
offset reaches the end, break when fewer than 2 bytes remain, read the tag,
stop rewound at the tag when it is 0xFF, parse the DER length (a throw
propagates as .error), break keeping the payload when the value would
overrun the buffer, otherwise slice the value, dispatch and continue.  The
loop returns the accumulated payload and the offset at which it stopped.
none means the fuel ran out, which happens only on inputs whose wrapped
negative lengths drive the offset backwards, where the JS loop itself need
not terminate. -/
def payloadLoop (data : List Nat) : Nat → Int → MiPayload →
    Option (Except DErr (MiPayload × Int))
  | 0, _, _ => none
  | fuel + 1, offset, p =>
    if offset < (data.length : Int) then
      if (data.length : Int) ≤ offset + 1 then some (.ok (p, offset))
      else
        let tag := jsIndex data offset
        if tag = some 0xFF then some (.ok (p, offset))
        else
          match parseDERLength data (offset + 1) with
          | .error e => some (.error e)
          | .ok li =>
            if (data.length : Int) < li.2 + li.1 then some (.ok (p, li.2))
            else
              payloadLoop data fuel (li.2 + li.1)
                (dispatchTag tag (jsSlice data li.2 (li.2 + li.1)) p)
    else some (.ok (p, offset))

/-- The signature entity: DER length and hex-rendered raw bytes. -/
structure MiSignature where
  length : Int
  data : String
deriving DecidableEq, Repr

/-- The signature extraction step after the payload loop: when the byte at
the stop offset is the reserved tag 0xFF (jsIndex already encodes the
offset < data.length guard), skip it and parse a DER length — its throw
propagates — and keep the signature only when the declared value fits the
buffer; in every other case the result simply has no signature. -/
def sigStep (data : List Nat) (offset : Int) : Except DErr (Option MiSignature) :=
  if jsIndex data offset = some 0xFF then
    match parseDERLength data (offset + 1) with
    | .error e => .error e
    | .ok li =>
      if li.2 + li.1 ≤ (data.length : Int) then
        .ok (some { length := li.1, data := hexConcat (jsSlice data li.2 (li.2 + li.1)) })
      else .ok none
  else .ok none

/-- The header record of decodeMiDNI.  docType and docCategory are read
with plain indexing and can be undefined when the buffer ends inside the
header, hence the Option. -/
structure MiHeader where
  magicConstant : Nat
  version : Nat
  country : String
  signerAndCertRef : String
  issueDate : String
  signDate : String
  docType : Option Nat
  docCategory : Option Nat
deriving DecidableEq, Repr

inductive DocKind where
  | simple
  | completo
  | edad
  | desconocido
deriving DecidableEq, Repr

structure DocumentInfo where
  kind : DocKind
  typeName : String
  description : String
deriving DecidableEq, Repr

/-- Template-literal rendering of a possibly undefined number. -/
def jsNumOpt : Option Nat → String
  | some n => toString n
  | none => "undefined"

/-- The docType switch of decodeMiDNI. -/
def docInfoOf (docType : Option Nat) : DocumentInfo :=
  if docType = some 7 then ⟨.simple, "DNI Simple", "Datos básicos del DNI"⟩
  else if docType = some 8 then
    ⟨.completo, "DNI Completo", "Datos completos con domicilio y filiación"⟩
  else if docType = some 9 then
    ⟨.edad, "Verificación de Edad", "Solo verificación de mayoría de edad"⟩
  else if docType = some 64 then
    ⟨.edad, "Verificación de Edad (64)", "Verificación de mayoría de edad - formato alternativo"⟩
  else
    ⟨.desconocido, "Tipo " ++ jsNumOpt docType,
      "Referencia de definición " ++ jsNumOpt docType ++ " - puede contener datos específicos"⟩

/-- s.slice(-2) for a string of length at least 2. -/
def strLastTwo (s : String) : String := String.mk (((s.toList).reverse.take 2).reverse)

/-- s.substring(a, b) (clamping at the end like JS). -/
def strSub (s : String) (a b : Nat) : String := String.mk ((s.toList.drop a).take (b - a))

/-- Hex digit value accepted by parseInt with radix 16. -/
def hexDigitVal (c : Char) : Option Nat :=
  if 48 ≤ c.toNat ∧ c.toNat ≤ 57 then some (c.toNat - 48)
  else if 65 ≤ c.toNat ∧ c.toNat ≤ 70 then some (c.toNat - 55)
  else if 97 ≤ c.toNat ∧ c.toNat ≤ 102 then some (c.toNat - 87)
  else none

/-- parseInt(s, 16): skip leading whitespace and take the longest run of
hex digits; none models NaN.  The inputs used here are 2-character strings
over the C40 alphabet (space, digits, uppercase letters), for which sign
characters cannot occur, and a leading "0X" prefix parses to 0 both in JS
(prefix stripped, empty digits, NaN) and here (single digit 0) with the
same downstream outcome because the caller only distinguishes values in
1..64. -/
def jsParseIntHex (s : String) : Option Nat :=
  let t := s.toList.dropWhile fun c => wsNat c.toNat
  let ds := t.takeWhile fun c => (hexDigitVal c).isSome
  if ds.isEmpty then none
  else some (ds.foldl (fun a c => a * 16 + (hexDigitVal c).getD 0) 0)

/-- The version-4 (version byte 0x03) variable-length signer block, read at
offset 4: decode 4 bytes of C40, require at least 6 characters, read the
certificate size from the last two characters as hex; a size in 1..64
fetches ceil(size/3)*2 further C40 bytes when available and builds
country + entity + certificate reference, every other case keeps the
4-byte signer text.  Returns the signer string and the consumed field
size. -/
def signerV4 (data : List Nat) : Except DErr (String × Nat) :=
  if data.length < 4 + 4 then .error .signerInsufficient
  else
    let signerDecoded := decodeC40 (listSlice data 4 8)
    if signerDecoded.length < 6 then .error .signerTooShort
    else
      let sizeHex := strLastTwo signerDecoded
      match jsParseIntHex sizeHex with
      | some certSize =>
        if 0 < certSize ∧ certSize ≤ 64 then
          let c40Bytes := (certSize + 2) / 3 * 2
          if 4 + 4 + c40Bytes ≤ data.length then
            let certDecoded := decodeC40 (listSlice data 8 (8 + c40Bytes))
            let certRef := strSub certDecoded 0 certSize
            .ok (strSub signerDecoded 0 2 ++ strSub signerDecoded 2 4 ++ certRef, 4 + c40Bytes)
          else .ok (signerDecoded, 4)
        else .ok (signerDecoded, 4)
      | none => .ok (signerDecoded, 4)

/-- The decoded result of decodeMiDNI. -/
structure DecodedQrData where
  header : MiHeader
  documentInfo : DocumentInfo
  payload : MiPayload
  signature : Option MiSignature
deriving DecidableEq, Repr

/-- The body of decodeMiDNI before its top-level catch: fewer than 12 bytes
throws, a first byte other than 0xDC throws, the header is read (version 3
selects the variable signer block, everything else the fixed 6-byte one),
two 3-byte dates and the type and category bytes follow, then the payload
loop and the signature step run on the rest.  The outer Option is the
fuel-exhaustion marker of the payload loop. -/
def decodeMiDNIBody (data : List Nat) : Option (Except DErr DecodedQrData) :=
  if data.length < 12 then some (.error .insufficientData)
  else if data.getD 0 0 ≠ 0xDC then some (.error .notMiDNI)
  else
    let version := data.getD 1 0
    let country := decodeC40 (listSlice data 2 4)
    let signerRes := if version = 3 then signerV4 data
      else .ok (decodeC40 (listSlice data 4 10), 6)
    match signerRes with
    | .error e => some (.error e)
    | .ok sr =>
      let off := 4 + sr.2
      let header : MiHeader :=
        { magicConstant := data.getD 0 0
          version := version
          country := country
          signerAndCertRef := sr.1
          issueDate := decodeMiDNIHeaderDate (listSlice data off (off + 3))
          signDate := decodeMiDNIHeaderDate (listSlice data (off + 3) (off + 6))
          docType := data.get? (off + 6)
          docCategory := data.get? (off + 7) }
      match payloadLoop data (data.length + 1) ((off : Int) + 8) emptyMiPayload with
      | none => none
      | some (.error e) => some (.error e)
      | some (.ok pr) =>
        match sigStep data pr.2 with
        | .error e => some (.error e)
        | .ok sig =>
          some (.ok { header := header, documentInfo := docInfoOf header.docType,
                      payload := pr.1, signature := sig })

/-- The catch arm of decodeMiDNI: any thrown error becomes the null
return. -/
def exceptToOption : Except DErr DecodedQrData → Option DecodedQrData
  | .ok r => some r
  | .error _ => none

/-- decodeMiDNI as seen by the caller: some (some r) is a decoded result,
some none is the null return of the catch arm, none is the
fuel-exhaustion marker for runs on which the JS loop itself revisits
offsets. -/
def decodeMiDNI (data : List Nat) : Option (Option DecodedQrData) :=
  (decodeMiDNIBody data).map exceptToOption

/-! ## decodeQrData record dispatch (src/src/app/page.tsx lines 105-156)

The page decoder variant collects all TLV records into a list, pops the
last one as the signature, and dispatches the remaining records by tag,
appending every unrecognized record to an unknown-fields list. -/

/-- One collected TLV record of decodeQrData. -/
structure TlvItem where
  tag : Nat
  length : Int
  value : List Nat
deriving DecidableEq, Repr

/-- Lossy (fatal: false) WHATWG UTF-8 decoding to code points, used by the
page decoder through new TextDecoder('utf-8'): invalid bytes become U+FFFD
and an invalid continuation byte is reprocessed (maximal subparts).  Fuel
bytes.length suffices since every step consumes at least one byte. -/
def utf8LossyF : Nat → List Nat → List Nat
  | 0, _ => []
  | _ + 1, [] => []
  | fuel + 1, b :: rest =>
    if b < 0x80 then b :: utf8LossyF fuel rest
    else if 0xC2 ≤ b ∧ b ≤ 0xDF then
      match rest with
      | c :: r2 =>
        if 0x80 ≤ c ∧ c ≤ 0xBF then ((b - 0xC0) * 64 + (c - 0x80)) :: utf8LossyF fuel r2
        else 0xFFFD :: utf8LossyF fuel rest
      | [] => [0xFFFD]
    else if 0xE0 ≤ b ∧ b ≤ 0xEF then
      let lo := if b = 0xE0 then 0xA0 else 0x80
      let hi := if b = 0xED then 0x9F else 0xBF
      match rest with
      | c :: r2 =>
        if lo ≤ c ∧ c ≤ hi then
          match r2 with
          | d :: r3 =>
            if 0x80 ≤ d ∧ d ≤ 0xBF then
              ((b - 0xE0) * 4096 + (c - 0x80) * 64 + (d - 0x80)) :: utf8LossyF fuel r3
            else 0xFFFD :: utf8LossyF fuel r2
          | [] => [0xFFFD]
        else 0xFFFD :: utf8LossyF fuel rest
      | [] => [0xFFFD]
    else if 0xF0 ≤ b ∧ b ≤ 0xF4 then
      let lo := if b = 0xF0 then 0x90 else 0x80
      let hi := if b = 0xF4 then 0x8F else 0xBF
      match rest with
      | c :: r2 =>
        if lo ≤ c ∧ c ≤ hi then
          match r2 with
          | d :: r3 =>
            if 0x80 ≤ d ∧ d ≤ 0xBF then
              match r3 with
              | e :: r4 =>
                if 0x80 ≤ e ∧ e ≤ 0xBF then
                  ((b - 0xF0) * 262144 + (c - 0x80) * 4096 + (d - 0x80) * 64 + (e - 0x80)) ::
                    utf8LossyF fuel r4
                else 0xFFFD :: utf8LossyF fuel r3
              | [] => [0xFFFD]
            else 0xFFFD :: utf8LossyF fuel r2
          | [] => [0xFFFD]
        else 0xFFFD :: utf8LossyF fuel rest
      | [] => [0xFFFD]
    else 0xFFFD :: utf8LossyF fuel rest

/-- textDecoder.decode of the page decoder, as UTF-16 code units;
the UTF-8 decoder strips one leading byte order mark. -/
def utf8LossyUnits (bytes : List Nat) : JsStr :=
  let core := match bytes with
    | 0xEF :: 0xBB :: 0xBF :: r => r
    | l => l
  ((utf8LossyF core.length core).map utf16OfCp).flatten

/-- The unknown-fields entry of the page decoder: the raw tag rendered as
0x followed by its unpadded hex digits, the DER length, and the value as
uppercase hex without separators. -/
structure QrUnknown where
  tag : String
  length : Int
  value : String
deriving DecidableEq, Repr

/-- The signature entry popped from the end of the record list. -/
structure QrSig where
  tag : Nat
  length : Int
  value : String
deriving DecidableEq, Repr

/-- The payload record of the page decoder. -/
structure QrPayload where
  documentNumber : Option JsStr := none
  dateOfBirth : Option JsStr := none
  name : Option JsStr := none
  surnames : Option JsStr := none
  sex : Option JsStr := none
  expiryDate : Option JsStr := none
  thumbnailInfo : Option String := none
  unknown : List QrUnknown := []
deriving DecidableEq, Repr

def emptyQrPayload : QrPayload := {}

/-- The tags the page decoder's switch recognizes. -/
def knownQrTag (t : Nat) : Bool :=
  t == 0x40 || t == 0x42 || t == 0x44 || t == 0x46 || t == 0x48 || t == 0x4C || t == 0x50

/-- The unknown-fields rendering of the default switch arm. -/
def renderUnknownQr (it : TlvItem) : QrUnknown :=
  { tag := "0x" ++ hexNat it.tag, length := it.length, value := hexUpperConcat it.value }

/-- One step of the forEach dispatch of decodeQrData: the JS payload.unknown
field is undefined until the first push, which the empty list models. -/
def qrDispatch (p : QrPayload) (it : TlvItem) : QrPayload :=
  if it.tag = 0x40 then { p with documentNumber := some (utf8LossyUnits it.value) }
  else if it.tag = 0x42 then { p with dateOfBirth := some (utf8LossyUnits it.value) }
  else if it.tag = 0x44 then { p with name := some (utf8LossyUnits it.value) }
  else if it.tag = 0x46 then { p with surnames := some (utf8LossyUnits it.value) }
  else if it.tag = 0x48 then { p with sex := some (utf8LossyUnits it.value) }
  else if it.tag = 0x4C then { p with expiryDate := some (utf8LossyUnits it.value) }
  else if it.tag = 0x50 then
    { p with thumbnailInfo := some ("JPEG2000 Image (" ++ toString it.length ++ " bytes)") }
  else { p with unknown := p.unknown ++ [renderUnknownQr it] }

/-- The signature pop and forEach dispatch of decodeQrData over the
collected TLV records: when the list is nonempty its last record becomes
the signature (whatever its tag), and the remaining records are dispatched
in order. -/
def buildPayloadQr (items : List TlvItem) : QrPayload × Option QrSig :=
  (items.dropLast.foldl qrDispatch emptyQrPayload,
   items.getLast?.map fun it => { tag := it.tag, length := it.length,
                                  value := hexUpperConcat it.value })

/-! ## Supporting lemmas -/

lemma jsInt32_id (n : Int) (h0 : 0 ≤ n) (h1 : n < 2147483648) : jsInt32 n = n := by
  unfold jsInt32
  omega

lemma le_foldl_beStep (bs : List Nat) : ∀ a : Int, 0 ≤ a → a ≤ List.foldl beStep a bs := by
  induction bs with
  | nil => intro a _; simp
  | cons b bs ih =>
    intro a ha
    have hb : (0 : Int) ≤ (b : Nat) := Int.natCast_nonneg b
    have h1 : a ≤ beStep a b := by
      have := mul_le_mul_of_nonneg_left (by norm_num : (1 : Int) ≤ 256) ha
      unfold beStep
      linarith
    have h2 : (0 : Int) ≤ beStep a b := by
      have := mul_nonneg ha (by norm_num : (0 : Int) ≤ 256)
      unfold beStep
      linarith
    calc a ≤ beStep a b := h1
      _ ≤ List.foldl beStep (beStep a b) bs := ih _ h2
      _ = List.foldl beStep a (b :: bs) := rfl

lemma foldl_derStep_eq_beStep (bs : List Nat) :
    ∀ a : Int, 0 ≤ a → List.foldl beStep a bs < 2147483648 →
    List.foldl derStep a bs = List.foldl beStep a bs := by
  induction bs with
  | nil => intro a _ _; rfl
  | cons b bs ih =>
    intro a ha hlt
    have hb : (0 : Int) ≤ (b : Nat) := Int.natCast_nonneg b
    have hnn : (0 : Int) ≤ a * 256 := mul_nonneg ha (by norm_num)
    have hstep : (0 : Int) ≤ beStep a b := by unfold beStep; linarith
    have hrest : List.foldl beStep a (b :: bs) = List.foldl beStep (beStep a b) bs := rfl
    have hle : beStep a b ≤ List.foldl beStep (beStep a b) bs := le_foldl_beStep bs _ hstep
    have hsm : a * 256 < 2147483648 := by
      have : a * 256 ≤ beStep a b := by unfold beStep; linarith
      rw [hrest] at hlt
      linarith
    have hd : derStep a b = beStep a b := by
      unfold derStep beStep
      rw [jsInt32_id _ hnn hsm]
    show List.foldl derStep (derStep a b) bs = _
    rw [hd, hrest]
    exact ih _ hstep (by rw [hrest] at hlt; exact hlt)

lemma derFold_eq_beVal (bs : List Nat) (h : beVal bs < 2147483648) : derFold bs = beVal bs :=
  foldl_derStep_eq_beStep bs 0 le_rfl h

lemma jsIndex_of_lt (data : List Nat) (i : Nat) (h : i < data.length) :
    jsIndex data (i : Int) = some (data.getD i 0) := by
  unfold jsIndex
  rw [if_pos (by constructor <;> omega)]
  have ht : ((i : Int)).toNat = i := by omega
  rw [ht]

lemma lenBytes_eq_derBytesN (data : List Nat) (off k : Nat) (h : off + k < data.length) :
    ((List.range k).map fun (i : Nat) => (jsIndex data ((off : Int) + 1 + (i : Int))).getD 0)
      = derBytesN data off k := by
  unfold derBytesN
  apply List.map_congr_left
  intro i hi
  have hik : i < k := List.mem_range.mp hi
  have hidx : ((off : Int) + 1 + i) = ((off + 1 + i : Nat) : Int) := by push_cast; ring
  rw [hidx, jsIndex_of_lt data (off + 1 + i) (by omega)]
  rfl

/-! ## Claim C2: the DER length decoder contract -/

/-- C2 counterexample: for the long form with k = 4 and octets FF FF FF FF
(4 available bytes, so clause (b) of the claim applies), the decoder
returns -1 — the signed 32-bit wrap of the JS shift-or accumulation — and
advances to offset 5, while the big-endian combination of the 4 octets is
4294967295; the decoded length does not equal the big-endian combination,
so clause (b) is false as stated. -/
theorem C2_counterexample :
    parseDERLength [0x84, 0xFF, 0xFF, 0xFF, 0xFF] 0 = .ok (-1, 5)
    ∧ beVal [0xFF, 0xFF, 0xFF, 0xFF] = 4294967295
    ∧ (4294967295 : Int) ≠ -1 := by
  refine ⟨by decide, by decide, by decide⟩

/-- C2 amended: (a) a first byte below 0x80 decodes to that byte's value,
consuming 1 byte; (b) with the high bit set, k in [1,4] and k more bytes
available, the decoded length equals the big-endian combination of the k
following octets and the cursor advances 1 + k bytes, PROVIDED that
combination is below 2^31 (otherwise it is reduced to a signed 32-bit
value, as the counterexample shows) and does not exceed the buffer length
(otherwise the exceeds-buffer throw fires); (c) k = 0 always yields the
indefinite-length error and k > 4 the excessive-length error, with no
out-of-bounds access. -/
theorem C2_amended :
    (∀ (data : List Nat) (off : Nat), off < data.length → data.getD off 0 < 0x80 →
      parseDERLength data off = .ok ((data.getD off 0 : Int), (off : Int) + 1))
    ∧ (∀ (data : List Nat) (off k : Nat),
        off < data.length → 0x80 ≤ data.getD off 0 → data.getD off 0 % 128 = k →
        1 ≤ k → k ≤ 4 → off + k < data.length →
        beVal (derBytesN data off k) < 2147483648 →
        beVal (derBytesN data off k) ≤ (data.length : Int) →
        parseDERLength data off = .ok (beVal (derBytesN data off k), (off : Int) + k + 1))
    ∧ (∀ (data : List Nat) (off : Nat), off < data.length →
        0x80 ≤ data.getD off 0 → data.getD off 0 % 128 = 0 →
        parseDERLength data off = .error .derIndefinite)
    ∧ (∀ (data : List Nat) (off : Nat), off < data.length →
        0x80 ≤ data.getD off 0 → 4 < data.getD off 0 % 128 →
        parseDERLength data off = .error .derTooMany) := by
  refine ⟨?_, ?_, ?_, ?_⟩
  · intro data off hlt hb
    simp only [parseDERLength, jsIndex_of_lt data off hlt]
    rw [if_neg (by omega), if_pos hb]
  · intro data off k hlt hge hk hk1 hk4 hkin hbe hle
    simp only [parseDERLength, jsIndex_of_lt data off hlt, hk]
    rw [if_neg (by omega), if_neg (by omega), if_neg (by omega), if_neg (by omega),
      if_neg (by omega)]
    rw [lenBytes_eq_derBytesN data off k hkin, derFold_eq_beVal _ hbe,
      if_neg (not_lt.mpr hle)]
  · intro data off hlt hge hk0
    simp only [parseDERLength, jsIndex_of_lt data off hlt, hk0]
    rw [if_neg (by omega), if_neg (by omega)]
    simp
  · intro data off hlt hge hk4
    simp only [parseDERLength, jsIndex_of_lt data off hlt]
    rw [if_neg (by omega), if_neg (by omega), if_neg (by omega), if_pos hk4]

/-- C2 witness: the amended theorem applied at concrete inputs for the
short form, the long form with k = 2, and the k = 0 and k > 4 errors. -/
theorem C2_witness :
    parseDERLength [0x05] 0 = .ok ((List.getD [0x05] 0 0 : Nat), (0 : Int) + 1)
    ∧ parseDERLength [0x82, 0x00, 0x03, 0x00, 0x00] 0
        = .ok (beVal (derBytesN [0x82, 0x00, 0x03, 0x00, 0x00] 0 2), (0 : Int) + 2 + 1)
    ∧ parseDERLength [0x80] 0 = .error .derIndefinite
    ∧ parseDERLength [0x85] 0 = .error .derTooMany :=
  ⟨C2_amended.1 [0x05] 0 (by decide) (by decide),
   C2_amended.2.1 [0x82, 0x00, 0x03, 0x00, 0x00] 0 2 (by decide) (by decide) (by decide)
     (by decide) (by decide) (by decide) (by decide) (by decide),
   C2_amended.2.2.1 [0x80] 0 (by decide) (by decide) (by decide),
   C2_amended.2.2.2 [0x85] 0 (by decide) (by decide) (by decide)⟩

/-! ## Claim C4: buffers below the 12-byte minimum -/

/-- C4: every buffer shorter than 12 bytes makes the decode body throw the
insufficient-data error before touching any byte, and the caller receives
the null result (no partial data); no position past the buffer end is read
because the error is raised by the length test alone. -/
theorem C4_thm : ∀ data : List Nat, data.length < 12 →
    decodeMiDNIBody data = some (.error .insufficientData) ∧ decodeMiDNI data = some none := by
  intro data h
  constructor
  · unfold decodeMiDNIBody
    rw [if_pos h]
  · unfold decodeMiDNI decodeMiDNIBody
    rw [if_pos h]
    rfl

/-- C4 witness: the theorem applied to the empty buffer. -/
theorem C4_witness :
    decodeMiDNIBody [] = some (.error .insufficientData) ∧ decodeMiDNI [] = some none :=
  C4_thm [] (by decide)

/-! ## Claim C10: the magic-byte gate -/

/-- C10: every buffer of at least 12 bytes whose first byte is not 0xDC
makes the decode body throw the not-miDNI error, and the caller receives
null — no structured result at all, regardless of the rest of the
buffer. -/
theorem C10_thm : ∀ data : List Nat, 12 ≤ data.length → data.getD 0 0 ≠ 0xDC →
    decodeMiDNIBody data = some (.error .notMiDNI) ∧ decodeMiDNI data = some none := by
  intro data h hne
  constructor
  · unfold decodeMiDNIBody
    rw [if_neg (by omega), if_pos hne]
  · unfold decodeMiDNI decodeMiDNIBody
    rw [if_neg (by omega), if_pos hne]
    rfl

/-- C10 witness: the theorem applied to 12 zero bytes. -/
theorem C10_witness :
    decodeMiDNIBody (List.replicate 12 0) = some (.error .notMiDNI)
    ∧ decodeMiDNI (List.replicate 12 0) = some none :=
  C10_thm (List.replicate 12 0) (by decide) (by decide)

/-! ## Concrete buffers shared by the counterexamples

An 18-byte version-1 header: magic 0xDC, version 0x01, country "ES"
(C40 0x7581), a 6-byte signer block ("ESESES"), issue and sign dates
0x23 0x47 0x40, docType 7, docCategory 9. -/

def hdr18 : List Nat :=
  [0xDC, 0x01, 0x75, 0x81, 0x75, 0x81, 0x75, 0x81, 0x75, 0x81,
   0x23, 0x47, 0x40, 0x23, 0x47, 0x40, 0x07, 0x09]

/-- Valid header, one well-formed document-number record "ABC", then a
record with tag 0x41 whose DER length byte 0x80 declares the unsupported
indefinite form. -/
def c1Buf : List Nat := hdr18 ++ [0x40, 0x03, 0x41, 0x42, 0x43, 0x41, 0x80]

/-- The same buffer without the malformed trailing record. -/
def c1Prefix : List Nat := hdr18 ++ [0x40, 0x03, 0x41, 0x42, 0x43]

/-! ## Claim C1: malformed DER lengths in the payload loop -/

/-- C1 counterexample: on c1Buf the header parses and the document-number
record "ABC" is read, but the indefinite-form DER length (k = 0) of the
next record makes parseDERLength throw; the top-level catch turns that into
the null return (some none), so the decode does NOT return the header and
previously parsed fields as the claim states.  The same buffer without the
malformed record decodes to a structured result, showing everything before
the malformed length was parseable. -/
theorem C1_counterexample :
    decodeMiDNI c1Buf = some none
    ∧ decodeMiDNI c1Prefix ≠ some none
    ∧ decodeMiDNI c1Prefix ≠ none := by
  refine ⟨by decide, by decide, by decide⟩

/-- C1 amended: a malformed DER length (indefinite form k = 0, k > 4,
missing length octets, or an accumulated length exceeding the whole buffer)
inside a TLV payload record is FATAL to the whole decode: the throw
propagates out of the payload loop (first conjunct) and the top-level catch
returns null (third conjunct), discarding the header and all fields parsed
before that point.  Only a successfully parsed length whose value ends past
the end of the buffer is non-fatal: the loop stops there and returns the
payload accumulated so far (second conjunct).  In both cases no exception
reaches the caller. -/
theorem C1_amended :
    (∀ (data : List Nat) (fuel : Nat) (off : Int) (p : MiPayload) (e : DErr),
      off < (data.length : Int) → off + 1 < (data.length : Int) →
      jsIndex data off ≠ some 0xFF →
      parseDERLength data (off + 1) = .error e →
      payloadLoop data (fuel + 1) off p = some (.error e))
    ∧ (∀ (data : List Nat) (fuel : Nat) (off : Int) (p : MiPayload) (l off2 : Int),
      off < (data.length : Int) → off + 1 < (data.length : Int) →
      jsIndex data off ≠ some 0xFF →
      parseDERLength data (off + 1) = .ok (l, off2) →
      (data.length : Int) < off2 + l →
      payloadLoop data (fuel + 1) off p = some (.ok (p, off2)))
    ∧ (∀ (data : List Nat) (e : DErr),
      decodeMiDNIBody data = some (.error e) → decodeMiDNI data = some none) := by
  refine ⟨?_, ?_, ?_⟩
  · intro data fuel off p e h1 h2 h3 herr
    simp only [payloadLoop, herr]
    rw [if_pos h1, if_neg (not_le.mpr h2), if_neg h3]
  · intro data fuel off p l off2 h1 h2 h3 hok hover
    simp only [payloadLoop, hok]
    rw [if_pos h1, if_neg (not_le.mpr h2), if_neg h3, if_pos hover]
  · intro data e h
    unfold decodeMiDNI
    rw [h]
    rfl

/-- C1 witness: the first conjunct applied to a 2-byte buffer whose single
record has tag 0x41 and the indefinite length byte 0x80, and the third
conjunct applied to the empty buffer. -/
theorem C1_witness :
    payloadLoop [0x41, 0x80] 1 0 emptyMiPayload = some (.error .derIndefinite)
    ∧ decodeMiDNI [] = some none :=
  ⟨C1_amended.1 [0x41, 0x80] 0 0 emptyMiPayload .derIndefinite (by decide) (by decide)
      (by decide) (by decide),
   C1_amended.2.2 [] .insufficientData (by decide)⟩

/-! ## Claim C6: routing of the 0xFF signature record -/

/-- Valid header, a document-number record "A", then the signature tag 0xFF
followed by the malformed length byte 0x80. -/
def c6Buf : List Nat := hdr18 ++ [0x40, 0x01, 0x41, 0xFF, 0x80]

/-- C6 counterexample: on c6Buf the payload loop stops at the trailing
0xFF record, but its DER length is malformed, so the signature step throws
and the whole decode returns null (some none) — the claim instead requires
a result carrying no signature when no well-formed signature record
follows. -/
theorem C6_counterexample :
    decodeMiDNI c6Buf = some none ∧ c6Buf.getD 21 0 = 0xFF := by
  refine ⟨by decide, by decide⟩

/-- C6 amended: a record tagged 0xFF always stops the payload loop rewound
to the tag, so it is never dispatched (decodeMiDNI has no unknown-fields
bag at all, and the 0xFF record in particular never reaches the dispatch);
the signature step then reads it: a parsable DER length whose value fits
the buffer yields the Signature slot with the length and hex-rendered
bytes, a parsable length that overruns the buffer yields a result with no
signature, and no 0xFF at the stop offset yields no signature — but a
malformed signature DER length throws, making the whole decode return null
(that case is the counterexample). -/
theorem C6_amended :
    (∀ (data : List Nat) (fuel : Nat) (off : Int) (p : MiPayload),
      jsIndex data off = some 0xFF →
      payloadLoop data (fuel + 1) off p = some (.ok (p, off)))
    ∧ (∀ (data : List Nat) (off l off2 : Int),
      jsIndex data off = some 0xFF →
      parseDERLength data (off + 1) = .ok (l, off2) →
      off2 + l ≤ (data.length : Int) →
      sigStep data off
        = .ok (some { length := l, data := hexConcat (jsSlice data off2 (off2 + l)) }))
    ∧ (∀ (data : List Nat) (off l off2 : Int),
      jsIndex data off = some 0xFF →
      parseDERLength data (off + 1) = .ok (l, off2) →
      (data.length : Int) < off2 + l →
      sigStep data off = .ok none)
    ∧ (∀ (data : List Nat) (off : Int),
      jsIndex data off ≠ some 0xFF →
      sigStep data off = .ok none) := by
  refine ⟨?_, ?_, ?_, ?_⟩
  · intro data fuel off p h
    simp only [payloadLoop, h]
    by_cases h1 : off < (data.length : Int)
    · rw [if_pos h1]
      by_cases h2 : (data.length : Int) ≤ off + 1
      · rw [if_pos h2]
      · rw [if_neg h2]
        simp
    · rw [if_neg h1]
  · intro data off l off2 h hp hle
    unfold sigStep
    rw [if_pos h]
    simp only [hp]
    rw [if_pos hle]
  · intro data off l off2 h hp hover
    unfold sigStep
    rw [if_pos h]
    simp only [hp]
    rw [if_neg (not_le.mpr hover)]
  · intro data off h
    unfold sigStep
    rw [if_neg h]

/-- C6 witness: the loop-stop conjunct applied at a buffer whose first byte
is the signature tag, and the well-formed-signature conjunct applied to the
3-byte buffer FF 01 AB. -/
theorem C6_witness :
    payloadLoop [0xFF, 0x00, 0x00] 1 0 emptyMiPayload = some (.ok (emptyMiPayload, 0))
    ∧ sigStep [0xFF, 0x01, 0xAB] 0
        = .ok (some { length := 1, data := hexConcat (jsSlice [0xFF, 0x01, 0xAB] 2 (2 + 1)) }) :=
  ⟨C6_amended.1 [0xFF, 0x00, 0x00] 0 0 emptyMiPayload (by decide),
   C6_amended.2.1 [0xFF, 0x01, 0xAB] 0 1 2 (by decide) (by decide) (by decide)⟩

/-! ## Claim C5: preservation of unrecognized tags -/

/-- Valid header followed by a single record with unrecognized tag 0x41 and
value byte 0xAA. -/
def c5BufA : List Nat := hdr18 ++ [0x41, 0x01, 0xAA]

/-- The same buffer with value byte 0xBB instead. -/
def c5BufB : List Nat := hdr18 ++ [0x41, 0x01, 0xBB]

/-- C5 counterexample: decodeMiDNI decodes both buffers successfully (not
null, not divergent) to the SAME result although they differ in the content
of the unrecognized record — that record is dropped silently, and the
decodeMiDNI result has no unknown-fields collection at all, contradicting
the claim that every unrecognized record is preserved. -/
theorem C5_counterexample :
    decodeMiDNI c5BufA = decodeMiDNI c5BufB
    ∧ c5BufA ≠ c5BufB
    ∧ decodeMiDNI c5BufA ≠ some none
    ∧ decodeMiDNI c5BufA ≠ none := by
  refine ⟨by decide, by decide, by decide, by decide⟩

lemma qrDispatch_unknown (p : QrPayload) (it : TlvItem) :
    (qrDispatch p it).unknown
      = p.unknown ++ (if knownQrTag it.tag then [] else [renderUnknownQr it]) := by
  unfold qrDispatch knownQrTag
  split_ifs with h1 h2 h3 h4 h5 h6 h7 <;> simp_all

lemma foldl_qrDispatch_unknown (items : List TlvItem) :
    ∀ p : QrPayload, (items.foldl qrDispatch p).unknown
      = p.unknown ++ (items.filter fun it => !knownQrTag it.tag).map renderUnknownQr := by
  induction items with
  | nil => intro p; simp
  | cons it items ih =>
    intro p
    rw [List.foldl_cons, ih, qrDispatch_unknown]
    by_cases h : knownQrTag it.tag
    · simp [List.filter_cons, h]
    · simp [List.filter_cons, h, List.append_assoc]

/-- C5 amended: in decodeMiDNI, unrecognized tags are skipped without
rejecting the record or the decode, but they are NOT preserved — the
result type has no unknown-fields collection (counterexample).  The
unknown-fields preservation holds in the page.tsx variant's record
dispatch: its unknown list is exactly the in-order rendering (raw tag, DER
length, uppercase hex content) of every collected record, except the final
one popped as the signature, whose tag is unrecognized; in particular a
record list carrying only recognized tags yields zero unknown fields. -/
theorem C5_amended :
    (∀ items : List TlvItem,
      (buildPayloadQr items).1.unknown
        = (items.dropLast.filter fun it => !knownQrTag it.tag).map renderUnknownQr)
    ∧ (∀ items : List TlvItem,
      (∀ it ∈ items.dropLast, knownQrTag it.tag = true) →
      (buildPayloadQr items).1.unknown = []) := by
  have h1 : ∀ items : List TlvItem,
      (buildPayloadQr items).1.unknown
        = (items.dropLast.filter fun it => !knownQrTag it.tag).map renderUnknownQr := by
    intro items
    show (items.dropLast.foldl qrDispatch emptyQrPayload).unknown = _
    rw [foldl_qrDispatch_unknown]
    rfl
  refine ⟨h1, ?_⟩
  intro items h
  rw [h1 items]
  have hf : (items.dropLast.filter fun it => !knownQrTag it.tag) = [] := by
    rw [List.filter_eq_nil_iff]
    intro it hit
    simp [h it hit]
  rw [hf]
  rfl

/-- C5 witness: the zero-unknown-fields conjunct applied to a two-record
list (a recognized document-number record, then the signature record that
gets popped). -/
theorem C5_witness :
    (buildPayloadQr [⟨0x40, 1, [0x41]⟩, ⟨0xFF, 2, [0xAB, 0xCD]⟩]).1.unknown = [] :=
  C5_amended.2 [⟨0x40, 1, [0x41]⟩, ⟨0xFF, 2, [0xAB, 0xCD]⟩] (by decide)

/-! ## Claim C3: the packed 3-byte date decoder -/

/-- C3 counterexample: the bytes 23 47 40 combine big-endian to 2312000,
whose 8-digit rendering 02312000 reads MM = 02, DD = 31, YYYY = 2000;
February 31 is not a real calendar date, so the claim requires the raw-hex
fallback, but the decoder performs no calendar-validity check and returns
the formatted string 31-02-2000.  (The claim's own concrete instance is
void: 22071977 exceeds the largest 24-bit value 16777215, so no 3 bytes
combine to it.) -/
theorem C3_counterexample :
    decodeMiDNIHeaderDate [0x23, 0x47, 0x40] = "31-02-2000"
    ∧ decodeMiDNIHeaderDate [0x23, 0x47, 0x40] ≠ dateFallback [0x23, 0x47, 0x40] := by
  refine ⟨by decide, by decide⟩

/-- C3 amended: the header date decoder tries five strategies in order —
day offsets from 1900 and 1970, BCD, packed MMDDYYYY, day offset from 2000.
When the first three fail and the 24-bit value decomposes as
MM*10^6 + DD*10^4 + YYYY with 1 <= MM <= 12, 1 <= DD <= 31 and
1950 <= YYYY <= 2030 (no calendar-validity check beyond these ranges), the
result is the DD-MM-YYYY rendering; when all five strategies fail, the
result is the bracketed raw-hex fallback rather than an error. -/
theorem C3_amended :
    (∀ b0 b1 b2 MM DD YYYY : Nat,
      method1 (b0 * 65536 + b1 * 256 + b2) = none →
      method2 (b0 * 65536 + b1 * 256 + b2) = none →
      method3 b0 b1 b2 = none →
      b0 * 65536 + b1 * 256 + b2 = MM * 1000000 + DD * 10000 + YYYY →
      1 ≤ MM → MM ≤ 12 → 1 ≤ DD → DD ≤ 31 → 1950 ≤ YYYY → YYYY ≤ 2030 →
      decodeMiDNIHeaderDate [b0, b1, b2] = fmtDMY DD MM YYYY)
    ∧ (∀ b0 b1 b2 : Nat,
      method1 (b0 * 65536 + b1 * 256 + b2) = none →
      method2 (b0 * 65536 + b1 * 256 + b2) = none →
      method3 b0 b1 b2 = none →
      method4 (b0 * 65536 + b1 * 256 + b2) = none →
      method5 (b0 * 65536 + b1 * 256 + b2) = none →
      decodeMiDNIHeaderDate [b0, b1, b2] = dateFallback [b0, b1, b2]) := by
  constructor
  · intro b0 b1 b2 MM DD YYYY h1 h2 h3 hv hm1 hm2 hd1 hd2 hy1 hy2
    have hM : (b0 * 65536 + b1 * 256 + b2) / 1000000 = MM := by omega
    have hD : (b0 * 65536 + b1 * 256 + b2) / 10000 % 100 = DD := by omega
    have hY : (b0 * 65536 + b1 * 256 + b2) % 10000 = YYYY := by omega
    have hb : decodeMiDNIHeaderDate [b0, b1, b2] = decodeDate3 b0 b1 b2 := rfl
    rw [hb]
    simp only [decodeDate3, h1, h2, h3, method4, hM, hD, hY, Option.none_or]
    rw [if_pos ⟨hm1, hm2, hd1, hd2, hy1, hy2⟩]
    rfl
  · intro b0 b1 b2 h1 h2 h3 h4 h5
    have hb : decodeMiDNIHeaderDate [b0, b1, b2] = decodeDate3 b0 b1 b2 := rfl
    rw [hb]
    simp only [decodeDate3, h1, h2, h3, h4, h5, Option.none_or]
    rfl

/-- C3 witness: the MMDDYYYY conjunct applied to the bytes 0F 71 16, whose
24-bit value 1011990 decomposes as 01 01 1990 after the epoch and BCD
strategies fail. -/
theorem C3_witness : decodeMiDNIHeaderDate [0x0F, 0x71, 0x16] = fmtDMY 1 1 1990 :=
  C3_amended.1 0x0F 0x71 0x16 1 1 1990 (by decide) (by decide) (by decide) (by decide)
    (by decide) (by decide) (by decide) (by decide) (by decide) (by decide)

/-! ## Claim C7: the C40 round trip on "ES" -/

/-- C7: E and S sit at C40 table positions 18 and 32; packing them with a
shift-code pad (position 0) per the spec's formula gives the group value
18*1600 + 32*40 + 0 + 1 = 0x7581, and decoding the two big-endian bytes of
that group with the source's decodeC40 returns exactly "ES" (the pad value
0 is dropped, trim leaves the two letters). -/
theorem C7_thm :
    c40Word 18 32 0 = 0x7581
    ∧ decodeC40 [c40Word 18 32 0 / 256, c40Word 18 32 0 % 256] = "ES" := by
  refine ⟨by decide, by decide⟩

/-! ## Claim C8: totality of the text decoder -/

lemma decodeTextM4_cases (bytes : List Nat) :
    decodeTextM4 bytes = jsTrimU (asciiMap bytes) ∨ decodeTextM4 bytes = hexUnits bytes := by
  unfold decodeTextM4
  by_cases h : jsTrimU (asciiMap bytes) ≠ []
      ∧ jsTrimU (asciiMap bytes) ≠ List.replicate (jsTrimU (asciiMap bytes)).length 63
  · exact Or.inl (if_pos h)
  · exact Or.inr (if_neg h)

lemma decodeTextM3_cases (bytes : List Nat) :
    decodeTextM3 bytes = jsTrimU (win1252 bytes)
    ∨ decodeTextM3 bytes = jsTrimU (asciiMap bytes)
    ∨ decodeTextM3 bytes = hexUnits bytes := by
  unfold decodeTextM3
  by_cases h : win1252 bytes ≠ [] ∧ jsTrimU (win1252 bytes) ≠ []
  · exact Or.inl (if_pos h)
  · rw [if_neg h]
    exact Or.inr (decodeTextM4_cases bytes)

lemma decodeTextM2_cases (bytes : List Nat) :
    decodeTextM2 bytes = jsTrimU (manualWalk bytes)
    ∨ decodeTextM2 bytes = jsTrimU (win1252 bytes)
    ∨ decodeTextM2 bytes = jsTrimU (asciiMap bytes)
    ∨ decodeTextM2 bytes = hexUnits bytes := by
  unfold decodeTextM2
  by_cases h : manualWalk bytes ≠ [] ∧ jsTrimU (manualWalk bytes) ≠ []
  · exact Or.inl (if_pos h)
  · rw [if_neg h]
    exact Or.inr (decodeTextM3_cases bytes)

/-- C8: the text decoder is total by construction (it is a plain function)
and never raises: the empty input yields the empty string (first conjunct);
when the strict UTF-8 decode succeeds with a nonempty, non-degenerate
result, that trimmed result is returned (second conjunct — the first stage
of the fallback chain takes priority); and for EVERY input the result is
one of the six chain outcomes in order — empty, trimmed strict UTF-8,
trimmed permissive manual UTF-8 walk, trimmed Latin-1/windows-1252 decode,
trimmed printable-ASCII-or-placeholder mapping, or the bracketed hex
rendering (third conjunct). -/
theorem C8_thm :
    decodeText [] = []
    ∧ (∀ (bytes : List Nat) (r : JsStr), bytes ≠ [] →
        utf8StrictJs bytes = some r →
        r ≠ [] → jsTrimU r ≠ [] → r.contains 0xFFFD = false →
        decodeText bytes = jsTrimU r)
    ∧ (∀ bytes : List Nat,
        decodeText bytes = []
        ∨ (∃ r, utf8StrictJs bytes = some r ∧ decodeText bytes = jsTrimU r)
        ∨ decodeText bytes = jsTrimU (manualWalk bytes)
        ∨ decodeText bytes = jsTrimU (win1252 bytes)
        ∨ decodeText bytes = jsTrimU (asciiMap bytes)
        ∨ decodeText bytes = hexUnits bytes) := by
  refine ⟨rfl, ?_, ?_⟩
  · intro bytes r hne hsome h1 h2 h3
    unfold decodeText
    rw [if_neg hne, hsome, Option.some_bind, if_pos ⟨h1, h2, h3⟩]
    rfl
  · intro bytes
    by_cases hb : bytes = []
    · subst hb
      exact Or.inl rfl
    · unfold decodeText
      rw [if_neg hb]
      cases hcase : utf8StrictJs bytes with
      | some r =>
        rw [Option.some_bind]
        by_cases hc : r ≠ [] ∧ jsTrimU r ≠ [] ∧ r.contains 0xFFFD = false
        · rw [if_pos hc]
          exact Or.inr (Or.inl ⟨r, rfl, rfl⟩)
        · rw [if_neg hc]
          exact Or.inr (Or.inr (decodeTextM2_cases bytes))
      | none =>
        rw [Option.none_bind]
        exact Or.inr (Or.inr (decodeTextM2_cases bytes))

/-- C8 witness: the strict-UTF-8 conjunct applied to the two ASCII bytes
"AB". -/
theorem C8_witness : decodeText [0x41, 0x42] = jsTrimU [0x41, 0x42] :=
  C8_thm.2.1 [0x41, 0x42] [0x41, 0x42] (by decide) (by decide) (by decide) (by decide)
    (by decide)

/-! ## Claim C9: determinism and idempotence of the decode -/

/-- C9: the embedded decodeMiDNI is a pure function of the input buffer —
the source function reads nothing but its argument and locals (its only
side effects are console logs), so the embedding carries no state — hence
any number of repeated decode calls on the same buffer yield structurally
equal results, and equal buffers decode equally. -/
theorem C9_thm :
    (∀ (data : List Nat) (n : Nat),
      (List.replicate n data).map decodeMiDNI = List.replicate n (decodeMiDNI data))
    ∧ (∀ d1 d2 : List Nat, d1 = d2 → decodeMiDNI d1 = decodeMiDNI d2) :=
  ⟨fun _ _ => List.map_replicate, fun _ _ h => by rw [h]⟩

/-- C9 witness: two decodes of the in-source header-only test prefix agree. -/
theorem C9_witness : decodeMiDNI hdr18 = decodeMiDNI hdr18 :=
  C9_thm.2 hdr18 hdr18 rfl

end MiDNI
